import Mathlib

/-!
Verification development for the reference-data normalizer of the Hiner.nyc
services.  The definitions below are a shallow embedding of the Python code:

* `src/Trax/server/app.py` — airline reference loader (`_normalize_airlines_payload`),
  index builder (`_index_airlines`) and callsign resolver (`_airline_for_callsign`);
* `src/yocto/app.py` — brand/logo resolver (`_norm`, `BRAND_LOGOS`, `ALIAS`,
  `logo_for_property`) and the aircraft canonicalizer (`aircraft_pretty`).

Python strings are embedded as Lean `String`, with the Python methods
(`strip`, `upper`, `lower`, slicing, `in`) modelled on the underlying
character lists.  JSON values are the inductive `Json`; Python dicts are
association lists with insertion-order semantics (assignment to an existing
key keeps its position, a new key is appended).
-/

namespace Hiner

/-- Whitespace characters stripped by Python `str.strip()` (ASCII subset). -/
def pySpaceB (c : Char) : Bool :=
  c = ' ' || c = '\t' || c = '\n' || c = '\r' || c = '\x0b' || c = '\x0c'

/-- `l` with leading and trailing whitespace removed, on character lists. -/
def stripList (l : List Char) : List Char :=
  ((l.dropWhile pySpaceB).reverse.dropWhile pySpaceB).reverse

/-- Python `s.strip()`. -/
def pyStrip (s : String) : String := ⟨stripList s.data⟩

/-- Python `s.upper()` (ASCII letters). -/
def pyUpper (s : String) : String := ⟨s.data.map Char.toUpper⟩

/-- Python `s.lower()` (ASCII letters). -/
def pyLower (s : String) : String := ⟨s.data.map Char.toLower⟩

/-- Python `len(s)`. -/
def pyLen (s : String) : Nat := s.data.length

/-- Python `s[:n]`. -/
def pyTake (s : String) (n : Nat) : String := ⟨s.data.take n⟩

/-- Python `needle in hay` on character lists: contiguous substring test. -/
def pyInList (needle : List Char) : List Char → Bool
  | [] => needle.isPrefixOf []
  | c :: t => needle.isPrefixOf (c :: t) || pyInList needle t

/-- Python `needle in hay` for strings. -/
def pyIn (needle hay : String) : Bool := pyInList needle.data hay.data

/-- Python `a or b` for strings (truthiness: non-empty). -/
def pyOrStr (a b : String) : String := if a = "" then b else a

/-- Python `s.startswith(pre)`. -/
def pyStartsWith (s pre : String) : Bool := pre.data.isPrefixOf s.data

/-- Association-list dictionaries keyed by strings (Python dict semantics). -/
def Dict (α : Type) : Type := List (String × α)

/-- Python `d.get(k)` / `d[k]`: the value under the key, if present. -/
def dget {α : Type} (d : Dict α) (k : String) : Option α :=
  match d with
  | [] => none
  | (k', v) :: t => if k' = k then some v else dget t k

/-- Python `d[k] = v`: replace in place if the key exists, else append. -/
def dinsert {α : Type} (k : String) (v : α) (d : Dict α) : Dict α :=
  match d with
  | [] => [(k, v)]
  | (k', v') :: t => if k' = k then (k', v) :: t else (k', v') :: dinsert k v t

/-- JSON values as decoded by `json.load` (numbers modelled as integers). -/
inductive Json where
  | null : Json
  | bool (b : Bool) : Json
  | num (n : Int) : Json
  | str (s : String) : Json
  | arr (l : List Json) : Json
  | obj (kvs : List (String × Json)) : Json

/-- Python truthiness of a JSON value. -/
def truthy : Json → Bool
  | .null => false
  | .bool b => b
  | .num n => n != 0
  | .str s => !(s = "")
  | .arr l => !l.isEmpty
  | .obj kvs => !kvs.isEmpty

mutual

/-- Python `repr` of a JSON value (strings single-quoted, unescaped). -/
def pyRepr : Json → String
  | .null => "None"
  | .bool true => "True"
  | .bool false => "False"
  | .num n => toString n
  | .str s => "'" ++ s ++ "'"
  | .arr l => "[" ++ pyReprList l ++ "]"
  | .obj kvs => "\x7b" ++ pyReprObj kvs ++ "\x7d"

/-- Comma-separated reprs of list elements. -/
def pyReprList : List Json → String
  | [] => ""
  | [x] => pyRepr x
  | x :: y :: t => pyRepr x ++ ", " ++ pyReprList (y :: t)

/-- Comma-separated reprs of dict items. -/
def pyReprObj : List (String × Json) → String
  | [] => ""
  | [(k, v)] => "'" ++ k ++ "': " ++ pyRepr v
  | (k, v) :: y :: t => "'" ++ k ++ "': " ++ pyRepr v ++ ", " ++ pyReprObj (y :: t)

end

/-- Python `str(v)` of a JSON value. -/
def pyStr : Json → String
  | .str s => s
  | v => pyRepr v

/-- An airline record: a Python dict from field names to JSON values. -/
def Record : Type := List (String × Json)

/-- One item of a key-value sequence, as `dict()` converts it: a 2-element
list with a string key gives that pair; a 2-character string gives its two
characters; a 2-key object gives its two keys (iterating a dict yields its
keys); a wrong-length iterable item raises `ValueError`; a non-iterable item
(null, bool, number) raises `TypeError`; an unhashable key (list, dict)
raises `TypeError`.  A 2-element list with a hashable non-string key (null,
bool, number) builds an entry that no string-keyed lookup in this program
can observe; `Record` carries string keys only, so the conversion returns
`none` and the entry is omitted (observationally equivalent for `dget` and
`dinsert` at string keys, which is all the service does with a record). -/
def pairOfElem (e : Json) : Except String (Option (String × Json)) :=
  match e with
  | .arr [k, v] =>
    match k with
    | .str s => .ok (some (s, v))
    | .arr _ => .error "TypeError: unhashable type"
    | .obj _ => .error "TypeError: unhashable type"
    | _ => .ok none
  | .arr _ => .error "ValueError: dictionary update sequence element does not have length 2"
  | .str s =>
    match s.data with
    | [c0, c1] => .ok (some (⟨[c0]⟩, .str ⟨[c1]⟩))
    | _ => .error "ValueError: dictionary update sequence element does not have length 2"
  | .obj [(k0, _), (k1, _)] => .ok (some (k0, .str k1))
  | .obj _ => .error "ValueError: dictionary update sequence element does not have length 2"
  | _ => .error "TypeError: cannot convert dictionary update sequence element to a sequence"

/-- `dict(l)` for a list `l`: convert each item to a key-value pair in
order, later duplicate keys overwriting in place. -/
def dictOfSeq (acc : Record) : List Json → Except String Record
  | [] => .ok acc
  | e :: t => do
    match ← pairOfElem e with
    | some (k, v) => dictOfSeq (dinsert k v acc) t
    | none => dictOfSeq acc t

/-- Python `dict(rec or \x7b\x7d)`: a falsy value gives an empty dict; a
JSON object gives its items; a truthy list is converted by the key-value
sequence protocol (`pairOfElem`); a non-empty string raises `ValueError`
(its items are 1-character strings, never length-2 pairs); any other truthy
value (a non-zero number, `true`) is not iterable and raises `TypeError`. -/
def dictOf (rec : Json) : Except String Record :=
  if truthy rec then
    match rec with
    | .obj kvs => .ok kvs
    | .arr l => dictOfSeq [] l
    | .str _ => .error "ValueError: dictionary update sequence element has length 1; 2 is required"
    | _ => .error "TypeError: object is not iterable"
  else .ok []

/-- The inner `clean` of `_normalize_airlines_payload`
(`src/Trax/server/app.py` lines 51-59): copy the record, strip/uppercase
truthy `icao`/`iata` fields, and default `primary_color` from `color`. -/
def clean (rec : Json) : Except String Record := do
  let r ← dictOf rec
  let r := match dget r "icao" with
    | some v => if truthy v then dinsert "icao" (Json.str (pyUpper (pyStrip (pyStr v)))) r else r
    | none => r
  let r := match dget r "iata" with
    | some v => if truthy v then dinsert "iata" (Json.str (pyUpper (pyStrip (pyStr v)))) r else r
    | none => r
  let r := if (dget r "primary_color").isNone
      && (match dget r "color" with | some v => truthy v | none => false) then
        dinsert "primary_color" ((dget r "color").getD Json.null) r
      else r
  return r

/-- `[clean(x) for x in l]`: clean each element in order, the first
exception propagating. -/
def cleanList : List Json → Except String (List Record)
  | [] => .ok []
  | v :: t => do
    let r ← clean v
    let rs ← cleanList t
    return r :: rs

/-- `_normalize_airlines_payload` (`src/Trax/server/app.py` lines 49-71):
accept an object with an `airlines` list, a bare list, or an object keyed by
code; the result is the canonical `airlines` list.  Any other shape yields
an empty list.  An exception raised by `clean` propagates as `.error`. -/
def normalize_airlines_payload (payload : Json) : Except String (List Record) :=
  match payload with
  | .obj kvs =>
    match dget kvs "airlines" with
    | some (.arr l) => cleanList l
    | _ => cleanList (kvs.map (fun kv => kv.2))
  | .arr l => cleanList l
  | _ => .ok []

/-- `(a.get(f) or "").strip().upper()` in `_index_airlines`: absent or falsy
fields give `""`; a truthy non-string raises `AttributeError`. -/
def keyOf (a : Record) (f : String) : Except String String :=
  match dget a f with
  | none => .ok ""
  | some v =>
    if truthy v then
      match v with
      | .str s => .ok (pyUpper (pyStrip s))
      | _ => .error "AttributeError"
    else .ok ""

/-- One iteration of the loop in `_index_airlines`
(`src/Trax/server/app.py` lines 78-84). -/
def indexStep (acc : Dict Record × Dict Record) (a : Record) :
    Except String (Dict Record × Dict Record) := do
  let icao ← keyOf a "icao"
  let iata ← keyOf a "iata"
  let d1 := if icao = "" then acc.1 else dinsert icao a acc.1
  let d2 := if iata = "" then acc.2 else dinsert iata a acc.2
  return (d1, d2)

/-- `_index_airlines` (`src/Trax/server/app.py` lines 74-84): build the
ICAO→record and IATA→record maps from the loaded record list. -/
def index_airlines (rs : List Record) :
    Except String (Dict Record × Dict Record) :=
  rs.foldlM indexStep ([], [])

/-- `_airline_for_callsign` (`src/Trax/server/app.py` lines 118-126). -/
def airline_for_callsign (byIcao byIata : Dict Record) (callsign : String) :
    Option Record :=
  if callsign = "" then none
  else
    let cs := pyUpper (pyStrip callsign)
    if 3 ≤ pyLen cs ∧ (dget byIcao (pyTake cs 3)).isSome then
      dget byIcao (pyTake cs 3)
    else if 2 ≤ pyLen cs ∧ (dget byIata (pyTake cs 2)).isSome then
      dget byIata (pyTake cs 2)
    else none

/-! ### Brand / logo resolver (`src/yocto/app.py`) -/

/-- `_norm` (`src/yocto/app.py` lines 129-132): lowercase and strip, map
`&` to `" and "`, then drop every character outside `a-z0-9`. -/
def norm_ (s : String) : String :=
  let s1 := pyStrip (pyLower s)
  let s2 := s1.data.flatMap (fun c => if c = '&' then (" and ").data else [c])
  ⟨s2.filter (fun c => ('a' ≤ c && c ≤ 'z') || ('0' ≤ c && c ≤ '9'))⟩

/-- `BRAND_LOGOS` (`src/yocto/app.py` lines 134-154), in source order. -/
def BRAND_LOGOS : Dict String :=
  [("conrad", "conrad.png"),
   ("embassysuites", "embassy_suites.png"),
   ("grandhyatt", "grand_hyatt.png"),
   ("hyattregency", "hyatt_regency.png"),
   ("parkhyatt", "park_hyatt.png"),
   ("thompson", "thompson.png"),
   ("jwmarriott", "jw_marriott.png"),
   ("renaissance", "renaissance.png"),
   ("residenceinn", "residence_inn.png"),
   ("stregis", "st_regis.png"),
   ("ritzcarlton", "ritz_carlton.png"),
   ("westin", "westin.png"),
   ("edition", "edition.png"),
   ("intercontinental", "intercontinental.png"),
   ("kimpton", "kimpton.png"),
   ("mandarinoriental", "mandarin_oriental.png"),
   ("fourseasons", "four_seasons.png"),
   ("waldorfastoria", "waldorf_astoria.png"),
   ("whotels", "w_hotels.png")]

/-- `ALIAS` (`src/yocto/app.py` lines 155-164), in source order. -/
def ALIAS : Dict String :=
  [("st.regis", "stregis"),
   ("saintregis", "stregis"),
   ("ritz-carlton", "ritzcarlton"),
   ("ritz", "ritzcarlton"),
   ("residenceinnbymarriott", "residenceinn"),
   ("residenceinnmarriott", "residenceinn"),
   ("four seasons", "fourseasons"),
   ("inter-continental", "intercontinental")]

/-- `_alias` (`src/yocto/app.py` line 165): `ALIAS.get(tok, tok)`. -/
def alias_ (tok : String) : String := (dget ALIAS tok).getD tok

/-- A hotel property record: the five fields `logo_for_property` reads,
each absent (`none`) or a string. -/
structure Property where
  name : Option String := none
  brand : Option String := none
  chain : Option String := none
  type : Option String := none
  subtype : Option String := none

/-- The candidate list of `logo_for_property` (`src/yocto/app.py` line 171):
the truthy brand/chain/type/subtype fields, then the name. -/
def candidatesOf (p : Property) : List String :=
  (([p.brand, p.chain, p.type, p.subtype].filterMap id).filter (fun c => !(c = "")))
    ++ [(p.name.getD "")]

/-- The body of the `for cand in candidates` loop of `logo_for_property`
(`src/yocto/app.py` lines 172-181): alias-canonicalize the normalized
token, then exact match, then table-key substring match, then raw alias-key
substring match; the result is the logo file name, if any strategy hits. -/
def tryCand (cand : String) : Option String :=
  let tok := alias_ (norm_ cand)
  match dget BRAND_LOGOS tok with
  | some f => some f
  | none =>
    match BRAND_LOGOS.find? (fun kv => pyIn kv.1 tok) with
    | some kv => some kv.2
    | none =>
      match ALIAS.find? (fun kv => pyIn kv.1 tok && (dget BRAND_LOGOS kv.2).isSome) with
      | some kv => dget BRAND_LOGOS kv.2
      | none => none

/-- `logo_for_property` (`src/yocto/app.py` lines 167-182), parameterized by
`SITE_BASE`. -/
def logo_for_property (siteBase : String) (p : Property) : String :=
  let name := p.name.getD ""
  if pyStartsWith (pyLower (pyStrip name)) "w " then
    siteBase ++ "/yocto/logos/" ++ (dget BRAND_LOGOS "whotels").getD ""
  else
    match (candidatesOf p).findSome? tryCand with
    | some f => siteBase ++ "/yocto/logos/" ++ f
    | none => siteBase ++ "/yocto/logos/fallback_logo.png"

/-! ### Aircraft canonicalizer (`src/yocto/app.py` lines 472-506) -/

/-- Python regex `\s` (ASCII subset) or the literal `-`, for `[\s-]`. -/
def spaceOrDash (c : Char) : Bool := pySpaceB c || c = '-'

/-- Three decimal digits at the head of the list (`\d{3}`). -/
def digits3 : List Char → Option String
  | a :: b :: c :: _ =>
    if a.isDigit && b.isDigit && c.isDigit then some ⟨[a, b, c]⟩ else none
  | _ => none

/-- After `e`/`erj`: `[\s-]?` (greedy; a consumed separator is never a
digit, so backtracking to the empty repetition cannot succeed) then
`\d{3}`. -/
def eTail (l : List Char) : Option String :=
  match l with
  | c :: rest => if spaceOrDash c then digits3 rest else digits3 l
  | [] => none

/-- Match `(e|erj)[\s-]?(\d{3})` at this position, alternatives tried in
order; the result is group 2. -/
def eTry (l : List Char) : Option String :=
  match l with
  | 'e' :: rest =>
    match eTail rest with
    | some d => some d
    | none =>
      match rest with
      | 'r' :: 'j' :: rest2 => eTail rest2
      | _ => none
  | _ => none

/-- `re.search(r"(e|erj)[\s-]?(\d{3})", s)`: first position, left to right,
where the pattern matches; the result is group 2. -/
def eSearch : List Char → Option String
  | [] => none
  | c :: t =>
    match eTry (c :: t) with
    | some d => some d
    | none => eSearch t

/-- Python regex `\w` (ASCII subset). -/
def isWordChar (c : Char) : Bool := c.isAlphanum || c = '_'

/-- `re.sub(r"(boeing|airbus|embraer|bombardier|canadair|\bseries\b)", "", s)`:
scan left to right, drop each leftmost match (alternatives in order),
keep other characters.  `prev` is the previous character of the original
string, for the word boundaries around `series`. -/
def stripVendorGo (prev : Option Char) (l : List Char) : List Char :=
  match l with
  | [] => []
  | c :: t =>
    if ("boeing").data.isPrefixOf (c :: t) then
      stripVendorGo (some 'g') ((c :: t).drop 6)
    else if ("airbus").data.isPrefixOf (c :: t) then
      stripVendorGo (some 's') ((c :: t).drop 6)
    else if ("embraer").data.isPrefixOf (c :: t) then
      stripVendorGo (some 'r') ((c :: t).drop 7)
    else if ("bombardier").data.isPrefixOf (c :: t) then
      stripVendorGo (some 'r') ((c :: t).drop 10)
    else if ("canadair").data.isPrefixOf (c :: t) then
      stripVendorGo (some 'r') ((c :: t).drop 8)
    else if ("series").data.isPrefixOf (c :: t)
        && (match prev with | none => true | some p => !isWordChar p)
        && (match (c :: t).drop 6 with | [] => true | d :: _ => !isWordChar d) then
      stripVendorGo (some 's') ((c :: t).drop 6)
    else
      c :: stripVendorGo (some c) t
termination_by l.length
decreasing_by
  all_goals simp [List.length_drop]
  all_goals omega

/-- Characters kept by `re.sub(r"[^a-z0-9\- ]", "", s2)`. -/
def keepChar (c : Char) : Bool :=
  ('a' ≤ c && c ≤ 'z') || ('0' ≤ c && c ≤ '9') || c = '-' || c = ' '

/-- `aircraft_pretty` (`src/yocto/app.py` lines 472-506). -/
def aircraft_pretty (name : Option String) : String :=
  let s := pyLower (name.getD "")
  if s = "" then ""
  else if pyIn "a321" s then (if pyIn "neo" s then "A321neo" else "A321")
  else if pyIn "a220-300" s || (pyIn "a220" s && pyIn "300" s) then "A220-300"
  else if pyIn "a220-100" s || (pyIn "a220" s && pyIn "100" s) then "A220-100"
  else if pyIn "a319" s then "A319"
  else if pyIn "a320" s then "A320"
  else if pyIn "a330" s then "A330"
  else if pyIn "a350" s then "A350"
  else if pyIn "767-400" s || (pyIn "767" s && pyIn "400" s) then "B767-400"
  else if pyIn "767-300" s || (pyIn "767" s && pyIn "300" s) then "B767-300"
  else if pyIn "757-300" s || (pyIn "757" s && pyIn "300" s) then "B757-300"
  else if pyIn "757-200" s || (pyIn "757" s && pyIn "200" s) then "B757-200"
  else if pyIn "787-10" s || (pyIn "787" s && pyIn "10" s) then "B787-10"
  else if pyIn "787-9" s || (pyIn "787" s && pyIn "9" s) then "B787-9"
  else if pyIn "787-8" s || (pyIn "787" s && pyIn "8" s) then "B787-8"
  else if pyIn "737" s then
    (if pyIn "900" s || pyIn "max 9" s then "B737-900"
     else if pyIn "800" s || pyIn "max 8" s then "B737-800"
     else if pyIn "700" s then "B737-700"
     else "B737")
  else if pyIn "crj" s then
    (if pyIn "900" s then "CRJ 900"
     else if pyIn "700" s then "CRJ 700"
     else if pyIn "200" s then "CRJ 200"
     else "CRJ")
  else
    match eSearch s.data with
    | some d => "E" ++ d
    | none =>
      let s2 : String := ⟨stripVendorGo none s.data⟩
      let s2 := pyUpper (pyStrip ⟨s2.data.filter keepChar⟩)
      pyOrStr s2 (name.getD "")

/-! ### Helper lemmas -/

theorem str_eq_empty_iff (s : String) : s = "" ↔ s.data = [] := by
  rw [String.ext_iff]

theorem pyTake_of_len_le (s : String) (n : Nat) (h : pyLen s ≤ n) :
    pyTake s n = s := by
  cases s with
  | mk data =>
    unfold pyTake
    exact congrArg String.mk (List.take_of_length_le h)

theorem pyLower_ne_empty (s : String) (h : s ≠ "") : pyLower s ≠ "" := by
  intro hc
  rw [str_eq_empty_iff] at hc
  unfold pyLower at hc
  simp only [List.map_eq_nil_iff] at hc
  exact h (str_eq_empty_iff s |>.mpr hc)

theorem dget_dinsert {α : Type} (d : Dict α) (k q : String) (v : α) :
    dget (dinsert k v d) q = if k = q then some v else dget d q := by
  induction d with
  | nil =>
    by_cases h : k = q <;> simp [dinsert, dget, h]
  | cons hd tl ih =>
    obtain ⟨k', v'⟩ := hd
    by_cases h1 : k' = k
    · subst h1
      by_cases h2 : k' = q <;> simp [dinsert, dget, h2]
    · by_cases h2 : k' = q
      · subst h2
        have h3 : ¬ k = k' := fun hc => h1 hc.symm
        simp [dinsert, dget, h1, h3]
      · simp [dinsert, dget, h1, h2, ih]

theorem findSome?_none_of_all {α β : Type} (l : List α) (f : α → Option β)
    (h : ∀ a ∈ l, f a = none) : l.findSome? f = none := by
  induction l with
  | nil => rfl
  | cons a t ih =>
    have ha := h a (by simp)
    have ht : ∀ x ∈ t, f x = none := fun x hx => h x (by simp [hx])
    simp [List.findSome?, ha, ih ht]

/-! ### Claims about the airline resolver -/

/-- A sample airline record used by the witnesses. -/
def recDelta : Record :=
  [("icao", Json.str "DAL"), ("iata", Json.str "DL"),
   ("name", Json.str "Delta Air Lines")]

/-- C1: a callsign whose normalized (stripped, uppercased) form has at least
3 characters and whose first 3 characters are a key of the ICAO index
resolves to the record stored under that key, regardless of what follows. -/
theorem c1_icao_prefix_resolves (byIcao byIata : Dict Record)
    (callsign : String) (rec : Record)
    (h1 : 3 ≤ pyLen (pyUpper (pyStrip callsign)))
    (h2 : dget byIcao (pyTake (pyUpper (pyStrip callsign)) 3) = some rec) :
    airline_for_callsign byIcao byIata callsign = some rec := by
  have hne : ¬ callsign = "" := by
    intro h
    subst h
    simp [pyUpper, pyStrip, stripList, pyLen] at h1
  unfold airline_for_callsign
  rw [if_neg hne]
  show (if 3 ≤ pyLen (pyUpper (pyStrip callsign)) ∧
      (dget byIcao (pyTake (pyUpper (pyStrip callsign)) 3)).isSome then
      dget byIcao (pyTake (pyUpper (pyStrip callsign)) 3)
    else _) = some rec
  rw [if_pos ⟨h1, by rw [h2]; rfl⟩]
  exact h2

/-- C1 witness: `" dal123 "` resolves through the ICAO key `DAL`. -/
theorem c1_witness :
    airline_for_callsign [("DAL", recDelta)] [] " dal123 " = some recDelta :=
  c1_icao_prefix_resolves [("DAL", recDelta)] [] " dal123 " recDelta
    (by decide) (by rfl)

/-- C2: a callsign whose normalized form has exactly 2 characters that are a
key of the IATA index resolves to the record under that key, while a
callsign whose normalized form is shorter than 2 characters resolves to
`none`. -/
theorem c2_iata_and_short (byIcao byIata : Dict Record)
    (cs1 cs2 : String) (rec : Record)
    (h1 : pyLen (pyUpper (pyStrip cs1)) = 2)
    (h2 : dget byIata (pyUpper (pyStrip cs1)) = some rec)
    (h3 : pyLen (pyUpper (pyStrip cs2)) < 2) :
    airline_for_callsign byIcao byIata cs1 = some rec ∧
    airline_for_callsign byIcao byIata cs2 = none := by
  constructor
  · have hne : ¬ cs1 = "" := by
      intro h
      subst h
      simp [pyUpper, pyStrip, stripList, pyLen] at h1
    have htake : pyTake (pyUpper (pyStrip cs1)) 2 = pyUpper (pyStrip cs1) :=
      pyTake_of_len_le _ 2 (by omega)
    unfold airline_for_callsign
    rw [if_neg hne]
    show (if 3 ≤ pyLen (pyUpper (pyStrip cs1)) ∧
        (dget byIcao (pyTake (pyUpper (pyStrip cs1)) 3)).isSome then
        dget byIcao (pyTake (pyUpper (pyStrip cs1)) 3)
      else if 2 ≤ pyLen (pyUpper (pyStrip cs1)) ∧
        (dget byIata (pyTake (pyUpper (pyStrip cs1)) 2)).isSome then
        dget byIata (pyTake (pyUpper (pyStrip cs1)) 2)
      else none) = some rec
    rw [if_neg (fun hc => absurd hc.1 (by omega))]
    rw [htake]
    rw [if_pos ⟨by omega, by rw [h2]; rfl⟩]
    exact h2
  · by_cases hz : cs2 = ""
    · subst hz
      unfold airline_for_callsign
      rw [if_pos rfl]
    · unfold airline_for_callsign
      rw [if_neg hz]
      show (if 3 ≤ pyLen (pyUpper (pyStrip cs2)) ∧
          (dget byIcao (pyTake (pyUpper (pyStrip cs2)) 3)).isSome then
          dget byIcao (pyTake (pyUpper (pyStrip cs2)) 3)
        else if 2 ≤ pyLen (pyUpper (pyStrip cs2)) ∧
          (dget byIata (pyTake (pyUpper (pyStrip cs2)) 2)).isSome then
          dget byIata (pyTake (pyUpper (pyStrip cs2)) 2)
        else none) = none
      rw [if_neg (fun hc => absurd hc.1 (by omega)),
        if_neg (fun hc => absurd hc.1 (by omega))]

/-- C2 witness: `"dl"` resolves through the IATA key `DL`; `" x "` does
not resolve. -/
theorem c2_witness :
    airline_for_callsign [] [("DL", recDelta)] "dl" = some recDelta ∧
    airline_for_callsign [] [("DL", recDelta)] " x " = none :=
  c2_iata_and_short [] [("DL", recDelta)] "dl" " x " recDelta
    (by decide) (by rfl) (by decide)

/-! ### Claims about the payload loader -/

/-- The record elements of a payload, by shape: the `airlines` list of an
object carrying one, the elements of a bare list, the values of any other
object; `none` for every other (scalar) shape. -/
def shapeElems (p : Json) : Option (List Json) :=
  match p with
  | .obj kvs =>
    match dget kvs "airlines" with
    | some (.arr l) => some l
    | _ => some (kvs.map (fun kv => kv.2))
  | .arr l => some l
  | _ => none

/-- `clean` forced total: the cleaned record, or an empty record where
`clean` raises. -/
def cleanD (v : Json) : Record :=
  match clean v with
  | .ok r => r
  | .error _ => []

theorem clean_of_accepted (v : Json) (h : (dictOf v).isOk = true) :
    clean v = .ok (cleanD v) := by
  cases hd : dictOf v with
  | error e =>
    rw [hd] at h
    exact Bool.noConfusion (h : false = true)
  | ok r =>
    unfold cleanD clean
    rw [hd]
    rfl

theorem cleanList_of_accepted (l : List Json)
    (h : ∀ v ∈ l, (dictOf v).isOk = true) :
    cleanList l = .ok (l.map cleanD) := by
  induction l with
  | nil => rfl
  | cons a t ih =>
    have ha := clean_of_accepted a (h a (by simp))
    have ht := ih (fun x hx => h x (by simp [hx]))
    unfold cleanList
    rw [ha, ht]
    rfl

/-- C3 counterexample: the bare-list payload `[5]` is one of the three
documented shapes, yet the loader raises (`dict(5)` is a `TypeError`)
instead of returning a canonical list. -/
theorem c3_counterexample :
    (normalize_airlines_payload (Json.arr [Json.num 5])).isOk = false := by
  rfl

/-- C3 (amended): the loader maps each documented shape to the canonical
cleaned record list, provided Python’s `dict()` conversion accepts every
record element (a JSON object, a falsy value, or a key-value sequence), and
maps every payload of any other (scalar) shape to an empty list without
error. -/
theorem c3_amended_loader (p : Json)
    (h : ∀ v ∈ (shapeElems p).getD [], (dictOf v).isOk = true) :
    normalize_airlines_payload p = .ok (((shapeElems p).getD []).map cleanD) := by
  cases p with
  | null => rfl
  | bool b => rfl
  | num n => rfl
  | str s => rfl
  | arr l =>
    have he : (shapeElems (Json.arr l)).getD [] = l := rfl
    rw [he] at h ⊢
    exact cleanList_of_accepted l h
  | obj kvs =>
    cases hg : dget kvs "airlines" with
    | none =>
      have he : (shapeElems (Json.obj kvs)).getD [] = kvs.map (fun kv => kv.2) := by
        simp [shapeElems, hg]
      rw [he] at h ⊢
      simp only [normalize_airlines_payload, hg]
      exact cleanList_of_accepted _ h
    | some v =>
      cases v with
      | arr l =>
        have he : (shapeElems (Json.obj kvs)).getD [] = l := by
          simp [shapeElems, hg]
        rw [he] at h ⊢
        simp only [normalize_airlines_payload, hg]
        exact cleanList_of_accepted _ h
      | null =>
        have he : (shapeElems (Json.obj kvs)).getD [] = kvs.map (fun kv => kv.2) := by
          simp [shapeElems, hg]
        rw [he] at h ⊢
        simp only [normalize_airlines_payload, hg]
        exact cleanList_of_accepted _ h
      | bool b =>
        have he : (shapeElems (Json.obj kvs)).getD [] = kvs.map (fun kv => kv.2) := by
          simp [shapeElems, hg]
        rw [he] at h ⊢
        simp only [normalize_airlines_payload, hg]
        exact cleanList_of_accepted _ h
      | num n =>
        have he : (shapeElems (Json.obj kvs)).getD [] = kvs.map (fun kv => kv.2) := by
          simp [shapeElems, hg]
        rw [he] at h ⊢
        simp only [normalize_airlines_payload, hg]
        exact cleanList_of_accepted _ h
      | str s =>
        have he : (shapeElems (Json.obj kvs)).getD [] = kvs.map (fun kv => kv.2) := by
          simp [shapeElems, hg]
        rw [he] at h ⊢
        simp only [normalize_airlines_payload, hg]
        exact cleanList_of_accepted _ h
      | obj kvs2 =>
        have he : (shapeElems (Json.obj kvs)).getD [] = kvs.map (fun kv => kv.2) := by
          simp [shapeElems, hg]
        rw [he] at h ⊢
        simp only [normalize_airlines_payload, hg]
        exact cleanList_of_accepted _ h

/-- C3 witness: a payload of the first documented shape containing an
object record, a null record and a key-value pair-sequence record
normalizes to its cleaned records. -/
theorem c3_witness :
    normalize_airlines_payload
      (Json.obj [("airlines",
        Json.arr [Json.obj [("icao", Json.str " dal "),
                            ("color", Json.str "#c01933")],
                  Json.null,
                  Json.arr [Json.arr [Json.str "iata", Json.str "dl"]]])]) =
    .ok (((shapeElems
      (Json.obj [("airlines",
        Json.arr [Json.obj [("icao", Json.str " dal "),
                            ("color", Json.str "#c01933")],
                  Json.null,
                  Json.arr [Json.arr [Json.str "iata", Json.str "dl"]]])])).getD []).map cleanD) :=
  c3_amended_loader _ (by decide)

/-! ### Claims about the index builder -/

theorem keyOf_ok_nonempty (a : Record) (f k : String)
    (h : keyOf a f = .ok k) (hne : k ≠ "") :
    ∃ s, dget a f = some (Json.str s) ∧ k = pyUpper (pyStrip s) := by
  cases hg : dget a f with
  | none =>
    simp only [keyOf, hg] at h
    injection h with h
    exact absurd h.symm hne
  | some v =>
    simp only [keyOf, hg] at h
    by_cases ht : truthy v = true
    · rw [if_pos ht] at h
      cases v with
      | str s =>
        injection h with h
        exact ⟨s, rfl, h.symm⟩
      | null => exact absurd ht (by simp [truthy])
      | bool b => simp [truthy] at ht; cases h
      | num n => cases h
      | arr l => cases h
      | obj kvs => cases h
    · rw [if_neg ht] at h
      injection h with h
      exact absurd h.symm hne

theorem index_fold_inv (rs : List Record)
    (acc res : Dict Record × Dict Record)
    (h1 : ∀ k a, dget acc.1 k = some a → k ≠ "" ∧ keyOf a "icao" = .ok k)
    (h2 : ∀ k a, dget acc.2 k = some a → k ≠ "" ∧ keyOf a "iata" = .ok k)
    (h : rs.foldlM indexStep acc = .ok res) :
    (∀ k a, dget res.1 k = some a → k ≠ "" ∧ keyOf a "icao" = .ok k) ∧
    (∀ k a, dget res.2 k = some a → k ≠ "" ∧ keyOf a "iata" = .ok k) := by
  induction rs generalizing acc with
  | nil =>
    simp only [List.foldlM_nil] at h
    injection h with h
    subst h
    exact ⟨h1, h2⟩
  | cons a t ih =>
    rw [List.foldlM_cons] at h
    cases hI : keyOf a "icao" with
    | error e =>
      unfold indexStep at h
      rw [hI] at h
      exact Except.noConfusion
        (h : (Except.error e : Except String (Dict Record × Dict Record)) = .ok res)
    | ok icao =>
      cases hA : keyOf a "iata" with
      | error e =>
        unfold indexStep at h
        rw [hI, hA] at h
        exact Except.noConfusion
          (h : (Except.error e : Except String (Dict Record × Dict Record)) = .ok res)
      | ok iata =>
        have hstep : indexStep acc a = .ok
            ((if icao = "" then acc.1 else dinsert icao a acc.1),
             (if iata = "" then acc.2 else dinsert iata a acc.2)) := by
          unfold indexStep
          rw [hI, hA]
          rfl
        rw [hstep] at h
        have h' : t.foldlM indexStep
            ((if icao = "" then acc.1 else dinsert icao a acc.1),
             (if iata = "" then acc.2 else dinsert iata a acc.2)) = .ok res := h
        refine ih _ ?_ ?_ h'
        · intro k b hk
          by_cases hic : icao = ""
          · rw [if_pos hic] at hk
            exact h1 k b hk
          · rw [if_neg hic] at hk
            rw [dget_dinsert] at hk
            by_cases he : icao = k
            · rw [if_pos he] at hk
              injection hk with hk
              subst hk
              exact ⟨he ▸ hic, he ▸ hI⟩
            · rw [if_neg he] at hk
              exact h1 k b hk
        · intro k b hk
          by_cases hic : iata = ""
          · rw [if_pos hic] at hk
            exact h2 k b hk
          · rw [if_neg hic] at hk
            rw [dget_dinsert] at hk
            by_cases he : iata = k
            · rw [if_pos he] at hk
              injection hk with hk
              subst hk
              exact ⟨he ▸ hic, he ▸ hA⟩
            · rw [if_neg he] at hk
              exact h2 k b hk

/-- C10: after any index build, every ICAO-index key is the non-empty
stripped-uppercased `icao` field of the record it maps to, likewise for the
IATA index, and a record whose `icao` and `iata` both normalize to the
empty key appears under no key of either index. -/
theorem c10_index_key_invariants (rs : List Record)
    (res : Dict Record × Dict Record)
    (h : index_airlines rs = .ok res) :
    (∀ k a, dget res.1 k = some a →
        k ≠ "" ∧ ∃ s, dget a "icao" = some (Json.str s) ∧ k = pyUpper (pyStrip s)) ∧
    (∀ k a, dget res.2 k = some a →
        k ≠ "" ∧ ∃ s, dget a "iata" = some (Json.str s) ∧ k = pyUpper (pyStrip s)) ∧
    (∀ a, keyOf a "icao" = .ok "" → keyOf a "iata" = .ok "" →
        (∀ k, ¬ dget res.1 k = some a) ∧ (∀ k, ¬ dget res.2 k = some a)) := by
  have base1 : ∀ k a, dget ([] : Dict Record) k = some a →
      k ≠ "" ∧ keyOf a "icao" = .ok k := by
    intro k a hk
    cases hk
  have base2 : ∀ k a, dget ([] : Dict Record) k = some a →
      k ≠ "" ∧ keyOf a "iata" = .ok k := by
    intro k a hk
    cases hk
  have inv := index_fold_inv rs ([], []) res base1 base2 h
  refine ⟨?_, ?_, ?_⟩
  · intro k a hk
    obtain ⟨hne, hkey⟩ := inv.1 k a hk
    exact ⟨hne, keyOf_ok_nonempty a "icao" k hkey hne⟩
  · intro k a hk
    obtain ⟨hne, hkey⟩ := inv.2 k a hk
    exact ⟨hne, keyOf_ok_nonempty a "iata" k hkey hne⟩
  · intro a hic hia
    constructor
    · intro k hk
      obtain ⟨hne, hkey⟩ := inv.1 k a hk
      rw [hic] at hkey
      injection hkey with hkey
      exact hne hkey.symm
    · intro k hk
      obtain ⟨hne, hkey⟩ := inv.2 k a hk
      rw [hia] at hkey
      injection hkey with hkey
      exact hne hkey.symm

/-- C10 witness: a two-record collection (one indexable, one with no codes)
builds an index satisfying the invariants. -/
theorem c10_witness :
    (∀ k a, dget ([("DAL", recDelta)] : Dict Record) k = some a →
        k ≠ "" ∧ ∃ s, dget a "icao" = some (Json.str s) ∧ k = pyUpper (pyStrip s)) ∧
    (∀ k a, dget ([("DL", recDelta)] : Dict Record) k = some a →
        k ≠ "" ∧ ∃ s, dget a "iata" = some (Json.str s) ∧ k = pyUpper (pyStrip s)) ∧
    (∀ a, keyOf a "icao" = .ok "" → keyOf a "iata" = .ok "" →
        (∀ k, ¬ dget ([("DAL", recDelta)] : Dict Record) k = some a) ∧
        (∀ k, ¬ dget ([("DL", recDelta)] : Dict Record) k = some a)) :=
  c10_index_key_invariants [recDelta, [("name", Json.str "NoCode Air")]]
    ([("DAL", recDelta)], [("DL", recDelta)]) (by rfl)

/-! ### Claims about the logo resolver -/

theorem str_append2_ne_empty (a b : String) (h : b.data ≠ []) :
    a ++ b ≠ "" := by
  intro hc
  rw [str_eq_empty_iff] at hc
  simp only [String.data_append, List.append_eq_nil] at hc
  exact h hc.2

theorem str_append3_ne_empty (a b c : String) (h : b.data ≠ []) :
    a ++ b ++ c ≠ "" := by
  intro hc
  rw [str_eq_empty_iff] at hc
  simp only [String.data_append, List.append_eq_nil] at hc
  exact h hc.1.2

/-- C4: the logo resolver is total and non-signalling: for any property it
returns a non-empty identifier, and when the name has no `"w "` prefix and
no candidate field matches any strategy, the result is exactly the fixed
fallback asset URL. -/
theorem c4_fallback_total (sb : String) (p : Property)
    (hw : pyStartsWith (pyLower (pyStrip (p.name.getD ""))) "w " = false)
    (hm : (candidatesOf p).all (fun c => (tryCand c).isNone) = true) :
    logo_for_property sb p = sb ++ "/yocto/logos/fallback_logo.png" ∧
    ∀ q : Property, logo_for_property sb q ≠ "" := by
  constructor
  · have hnone : (candidatesOf p).findSome? tryCand = none := by
      apply findSome?_none_of_all
      intro c hc
      have := List.all_eq_true.mp hm c hc
      exact Option.isNone_iff_eq_none.mp this
    unfold logo_for_property
    rw [if_neg (by rw [hw]; exact Bool.false_ne_true)]
    rw [hnone]
  · intro q
    unfold logo_for_property
    by_cases hwq : pyStartsWith (pyLower (pyStrip (q.name.getD ""))) "w " = true
    · rw [if_pos hwq]
      exact str_append3_ne_empty sb "/yocto/logos/" _ (by decide)
    · rw [if_neg hwq]
      cases hf : (candidatesOf q).findSome? tryCand with
      | some f => exact str_append3_ne_empty sb "/yocto/logos/" f (by decide)
      | none => exact str_append2_ne_empty sb "/yocto/logos/fallback_logo.png" (by decide)

/-- C4 witness: a property named `"Obscure Boutique Inn"` with no other
fields resolves to the fallback logo. -/
theorem c4_witness :
    logo_for_property "https://hiner.nyc" { name := some "Obscure Boutique Inn" } =
      "https://hiner.nyc" ++ "/yocto/logos/fallback_logo.png" ∧
    ∀ q : Property, logo_for_property "https://hiner.nyc" q ≠ "" :=
  c4_fallback_total "https://hiner.nyc" { name := some "Obscure Boutique Inn" }
    (by decide) (by decide)

/-- C5: a property whose stripped, lowercased name starts with `"w "`
resolves to the W Hotels logo — and in particular not to the Westin
logo — before any candidate field is consulted. -/
theorem c5_w_hotels (sb : String) (p : Property)
    (h : pyStartsWith (pyLower (pyStrip (p.name.getD ""))) "w " = true) :
    logo_for_property sb p = sb ++ "/yocto/logos/" ++ "w_hotels.png" ∧
    logo_for_property sb p ≠ sb ++ "/yocto/logos/" ++ "westin.png" := by
  have heq : logo_for_property sb p = sb ++ "/yocto/logos/" ++ "w_hotels.png" := by
    unfold logo_for_property
    rw [if_pos h]
    rfl
  refine ⟨heq, ?_⟩
  rw [heq]
  intro hc
  have hlen := congrArg (fun s => s.data.length) hc
  simp [String.data_append, List.length_append] at hlen

/-- C5 witness: name `"W Austin"` with no brand field resolves to the
W Hotels logo. -/
theorem c5_witness :
    logo_for_property "https://hiner.nyc" { name := some "W Austin" } =
      "https://hiner.nyc" ++ "/yocto/logos/" ++ "w_hotels.png" ∧
    logo_for_property "https://hiner.nyc" { name := some "W Austin" } ≠
      "https://hiner.nyc" ++ "/yocto/logos/" ++ "westin.png" :=
  c5_w_hotels "https://hiner.nyc" { name := some "W Austin" } (by decide)

/-- C6: brand text `"The Ritz-Carlton, Boston"` resolves (normalization,
then alias canonicalization, then the substring fallback over the table
keys) to the Ritz-Carlton logo. -/
theorem c6_ritz_carlton :
    logo_for_property "https://hiner.nyc"
      { brand := some "The Ritz-Carlton, Boston" } =
      "https://hiner.nyc/yocto/logos/ritz_carlton.png" := by
  decide

/-! ### Claims about the aircraft canonicalizer -/

/-- C7: the sub-variant rule for `737-800` fires before the bare `737`
family rule. -/
theorem c7_737_800_specific :
    aircraft_pretty (some "Boeing 737-800 (Winglets) Passenger") = "B737-800" ∧
    aircraft_pretty (some "Boeing 737-800 (Winglets) Passenger") ≠ "B737" := by
  constructor
  · rfl
  · decide

theorem e_append_ne_empty (d : String) : ("E" ++ d : String) ≠ "" := by
  intro hc
  rw [str_eq_empty_iff] at hc
  simp [String.data_append] at hc

theorem pyOrStr_ne_empty (a b : String) (hb : b ≠ "") : pyOrStr a b ≠ "" := by
  unfold pyOrStr
  split
  · exact hb
  · next hx => exact hx

/-- C8: the canonicalizer maps `None` and `""` to `""`, and every non-empty
input to a non-empty string. -/
theorem c8_empty_and_total (s : String) (h : s ≠ "") :
    aircraft_pretty none = "" ∧ aircraft_pretty (some "") = "" ∧
    aircraft_pretty (some s) ≠ "" := by
  refine ⟨rfl, rfl, ?_⟩
  have hs : pyLower s ≠ "" := pyLower_ne_empty s h
  intro hc
  simp only [aircraft_pretty, Option.getD_some] at hc
  rw [if_neg hs] at hc
  by_cases h1 : pyIn "a321" (pyLower s) = true
  · rw [if_pos h1] at hc
    split at hc <;> exact absurd hc (by decide)
  rw [if_neg h1] at hc
  by_cases h2 : (pyIn "a220-300" (pyLower s)
      || pyIn "a220" (pyLower s) && pyIn "300" (pyLower s)) = true
  · rw [if_pos h2] at hc
    exact absurd hc (by decide)
  rw [if_neg h2] at hc
  by_cases h3 : (pyIn "a220-100" (pyLower s)
      || pyIn "a220" (pyLower s) && pyIn "100" (pyLower s)) = true
  · rw [if_pos h3] at hc
    exact absurd hc (by decide)
  rw [if_neg h3] at hc
  by_cases h4 : pyIn "a319" (pyLower s) = true
  · rw [if_pos h4] at hc
    exact absurd hc (by decide)
  rw [if_neg h4] at hc
  by_cases h5 : pyIn "a320" (pyLower s) = true
  · rw [if_pos h5] at hc
    exact absurd hc (by decide)
  rw [if_neg h5] at hc
  by_cases h6 : pyIn "a330" (pyLower s) = true
  · rw [if_pos h6] at hc
    exact absurd hc (by decide)
  rw [if_neg h6] at hc
  by_cases h7 : pyIn "a350" (pyLower s) = true
  · rw [if_pos h7] at hc
    exact absurd hc (by decide)
  rw [if_neg h7] at hc
  by_cases h8 : (pyIn "767-400" (pyLower s)
      || pyIn "767" (pyLower s) && pyIn "400" (pyLower s)) = true
  · rw [if_pos h8] at hc
    exact absurd hc (by decide)
  rw [if_neg h8] at hc
  by_cases h9 : (pyIn "767-300" (pyLower s)
      || pyIn "767" (pyLower s) && pyIn "300" (pyLower s)) = true
  · rw [if_pos h9] at hc
    exact absurd hc (by decide)
  rw [if_neg h9] at hc
  by_cases h10 : (pyIn "757-300" (pyLower s)
      || pyIn "757" (pyLower s) && pyIn "300" (pyLower s)) = true
  · rw [if_pos h10] at hc
    exact absurd hc (by decide)
  rw [if_neg h10] at hc
  by_cases h11 : (pyIn "757-200" (pyLower s)
      || pyIn "757" (pyLower s) && pyIn "200" (pyLower s)) = true
  · rw [if_pos h11] at hc
    exact absurd hc (by decide)
  rw [if_neg h11] at hc
  by_cases h12 : (pyIn "787-10" (pyLower s)
      || pyIn "787" (pyLower s) && pyIn "10" (pyLower s)) = true
  · rw [if_pos h12] at hc
    exact absurd hc (by decide)
  rw [if_neg h12] at hc
  by_cases h13 : (pyIn "787-9" (pyLower s)
      || pyIn "787" (pyLower s) && pyIn "9" (pyLower s)) = true
  · rw [if_pos h13] at hc
    exact absurd hc (by decide)
  rw [if_neg h13] at hc
  by_cases h14 : (pyIn "787-8" (pyLower s)
      || pyIn "787" (pyLower s) && pyIn "8" (pyLower s)) = true
  · rw [if_pos h14] at hc
    exact absurd hc (by decide)
  rw [if_neg h14] at hc
  by_cases h15 : pyIn "737" (pyLower s) = true
  · rw [if_pos h15] at hc
    split at hc <;> first
      | exact absurd hc (by decide)
      | (split at hc <;> first
          | exact absurd hc (by decide)
          | (split at hc <;> exact absurd hc (by decide)))
  rw [if_neg h15] at hc
  by_cases h16 : pyIn "crj" (pyLower s) = true
  · rw [if_pos h16] at hc
    split at hc <;> first
      | exact absurd hc (by decide)
      | (split at hc <;> first
          | exact absurd hc (by decide)
          | (split at hc <;> exact absurd hc (by decide)))
  rw [if_neg h16] at hc
  cases hE : eSearch (pyLower s).data with
  | some d =>
    rw [hE] at hc
    exact absurd hc (e_append_ne_empty d)
  | none =>
    rw [hE] at hc
    exact absurd hc (pyOrStr_ne_empty _ _ h)

/-- C8 witness: the fixed points at `None` and `""`, and a non-empty input
with a non-empty output. -/
theorem c8_witness :
    aircraft_pretty none = "" ∧ aircraft_pretty (some "") = "" ∧
    aircraft_pretty (some "Cessna 172") ≠ "" :=
  c8_empty_and_total "Cessna 172" (by decide)

end Hiner
